import Mathlib

/-!
Verification of the inventory/transaction consistency engine of the
Retail-POS-System repository (pos_app/services_sales.py,
pos_app/services_inventory.py, pos_app/models.py), as a shallow embedding.

Modelling conventions, drawn from the source:
* Python `Decimal` values are modelled as exact rationals.  All the monetary
  arithmetic performed by the services (sums of price*quantity, one multiply
  and one divide by 100) is exact in Python's default Decimal context for the
  magnitudes the schema admits (`max_digits=10, decimal_places=2`), so the
  rational model is faithful.
* The Django ORM state is a `DB` record of row lists.  `Inventory.quantity`
  is declared `PositiveIntegerField` in models.py; the configured backend is
  PostgreSQL (settings_base.py), where Django emits a CHECK (quantity >= 0)
  constraint, so a `save()` of a negative quantity raises `IntegrityError`.
  We model a save of a negative quantity as the error `integrityError`.
* Every service method is wrapped in `@transaction.atomic` and re-raises any
  exception, so a failing call leaves the database unchanged.  We model each
  method as `Except PosError result`: an `.error` outcome carries no new
  state, and the `...Atomic` wrappers below make the unchanged-state reading
  explicit.
* `select_for_update` row locks serialize the operations; the embedding is
  the resulting sequential semantics.
* Timestamps, transaction-id strings, e-mail notifications and logger calls
  do not affect the persisted invariants the claims are about; timestamps are
  abstracted to a `Nat` tick supplied by the caller, generated ids to the
  `nextId` counter.
-/

namespace POS

/-- One line item of a sale or return: the dicts
`{product_id, quantity, price}` accepted by `SalesService`.  Quantities are
validated positive integers (validators.py), prices exact decimals. -/
structure Item where
  product_id : Nat
  quantity : Nat
  price : ℚ
deriving DecidableEq

/-- A row of the `Inventory` table (models.py): unique per (product, store),
`quantity` and `reorder_level` positive-integer columns.  The quantity is
carried as `Int` because the in-memory Python attribute can hold a negative
intermediate value; the database CHECK constraint restores `0 ≤ quantity` at
every successful save. -/
structure InventoryRow where
  product_id : Nat
  store_id : Nat
  quantity : Int
  reorder_level : Int
deriving DecidableEq

/-- The acting `User` row: commission fields from models.py. -/
structure User where
  id : Nat
  commission_rate : ℚ
  total_commission : ℚ
deriving DecidableEq

/-- Transaction type choices of models.py. -/
inductive TxnType where
  | sale
  | ret
deriving DecidableEq

/-- A row of the `Transaction` table, restricted to the fields the engine
writes (models.py lines 103-113). -/
structure Txn where
  id : Nat
  user_id : Nat
  store_id : Nat
  transaction_type : TxnType
  subtotal : ℚ
  vat_amount : ℚ
  total_amount : ℚ
  commission : ℚ
deriving DecidableEq

/-- A row of the `TransactionItem` table (models.py lines 126-131). -/
structure TxnItem where
  transaction_fk : Nat
  product_id : Nat
  quantity : Nat
  unit_price : ℚ
  total_price : ℚ
deriving DecidableEq

/-- Structured rendering of the audit-log `description` f-strings written by
the services; `adjustDesc` records the old and new quantity exactly as the
f-string in services_inventory.py line 53 does. -/
inductive AuditDesc where
  | saleDesc (total : ℚ)
  | returnDesc (total : ℚ)
  | adjustDesc (oldQty newQty : Int) (reason : String)
  | transferReq (q : Nat)
  | transferApproved (q : Nat)
  | transferRejected (q : Nat) (reason : String)
deriving DecidableEq

/-- A row of the append-only `AuditLog` table, restricted to the fields the
claims inspect. -/
structure AuditEntry where
  user_id : Nat
  action : String
  desc : AuditDesc
  ip : Option String
deriving DecidableEq

/-- Status choices of `InventoryTransfer` (models.py lines 138-142). -/
inductive TransferStatus where
  | pending
  | approved
  | rejected
deriving DecidableEq

/-- A row of the `InventoryTransfer` table.  The approval timestamp is the
abstract tick passed to the operation. -/
structure Transfer where
  id : Nat
  product_id : Nat
  from_store : Nat
  to_store : Nat
  quantity : Nat
  status : TransferStatus
  requested_by : Nat
  approved_by : Option Nat
  approval_date : Option Nat
deriving DecidableEq

/-- The persisted database state the engines read and write. -/
structure DB where
  inventories : List InventoryRow
  transactions : List Txn
  transactionItems : List TxnItem
  users : List User
  auditLogs : List AuditEntry
  nextId : Nat
deriving DecidableEq

/-- The failure taxonomy.  `insufficientStock`, `negativeInventory` and
`transferNotPending` are the ValueErrors raised explicitly by the services;
`notFound` is the ORM DoesNotExist; `integrityError` is the database
rejecting a write that violates the CHECK (quantity >= 0) constraint of
`PositiveIntegerField`; `nameError` is a Python NameError. -/
inductive PosError where
  | insufficientStock
  | negativeInventory
  | transferNotPending
  | notFound
  | integrityError
  | nameError
deriving DecidableEq

/-- Result test used by the sequential runner. -/
def exceptOk {ε α : Type} : Except ε α → Bool
  | .ok _ => true
  | .error _ => false

/-- ORM lookup `Inventory.objects.get(product, store)`. -/
def findInv (invs : List InventoryRow) (pid sid : Nat) : Option InventoryRow :=
  invs.find? (fun r => r.product_id == pid && r.store_id == sid)

/-- Quantity held at one (product, store) key, reading an absent row as 0
(the `get_or_create` default of the services). -/
def qtyL (invs : List InventoryRow) (pid sid : Nat) : Int :=
  match findInv invs pid sid with
  | some r => r.quantity
  | none => 0

/-- Quantity of a (product, store) key in a database state. -/
def qtyOf (db : DB) (pid sid : Nat) : Int :=
  qtyL db.inventories pid sid

/-- Persist a new quantity for the (product, store) row: the effect of
`inventory.quantity = q; inventory.save()`. -/
def setInvQty (invs : List InventoryRow) (pid sid : Nat) (q : Int) : List InventoryRow :=
  invs.map (fun r => if r.product_id == pid && r.store_id == sid then { r with quantity := q } else r)

/-- `Inventory.objects.get_or_create(product, store, defaults={quantity: 0})`:
returns the table (with the row inserted at quantity 0 and the model default
`reorder_level = 10` when absent) and the row's current quantity. -/
def getOrCreateInv (invs : List InventoryRow) (pid sid : Nat) : List InventoryRow × Int :=
  match findInv invs pid sid with
  | some r => (invs, r.quantity)
  | none => (invs ++ [{ product_id := pid, store_id := sid, quantity := 0, reorder_level := 10 }], 0)

/-- VAT rate: `getattr(settings, 'VAT_RATE', 16.00)` with
`VAT_RATE = 16.00` configured in settings_base.py line 243. -/
def VAT_RATE : ℚ := 16

/-- `SalesService.calculate_vat` (services_sales.py lines 19-23). -/
def calculate_vat (subtotal : ℚ) : ℚ :=
  subtotal * VAT_RATE / 100

/-- `SalesService.calculate_commission` (services_sales.py lines 25-28). -/
def calculate_commission (total rate : ℚ) : ℚ :=
  total * rate / 100

/-- The subtotal loop of `create_sale` and `process_return`:
`subtotal += Decimal(str(item['price'])) * Decimal(str(item['quantity']))`. -/
def sale_subtotal (items : List Item) : ℚ :=
  items.foldl (fun s it => s + it.price * (it.quantity : ℚ)) 0

/-- One pass of the per-item inventory update of `create_sale` (lines 77-82):
lock-read the row (DoesNotExist if absent), subtract the item quantity and
save; the save violates the CHECK constraint when the result is negative. -/
def applySaleItem (sid : Nat) (invs : List InventoryRow) (it : Item) :
    Except PosError (List InventoryRow) :=
  match findInv invs it.product_id sid with
  | none => .error .notFound
  | some row =>
    let q := row.quantity - (it.quantity : Int)
    if q < 0 then .error .integrityError
    else .ok (setInvQty invs it.product_id sid q)

/-- The item loop of `create_sale` over the whole cart. -/
def applySaleItems (sid : Nat) (invs : List InventoryRow) :
    List Item → Except PosError (List InventoryRow)
  | [] => .ok invs
  | it :: rest =>
    match applySaleItem sid invs it with
    | .error e => .error e
    | .ok invs2 => applySaleItems sid invs2 rest

/-- One pass of the per-item inventory update of `process_return`
(lines 156-161): lock-read the row and add the item quantity back.  The save
still passes through the CHECK constraint. -/
def applyReturnItem (sid : Nat) (invs : List InventoryRow) (it : Item) :
    Except PosError (List InventoryRow) :=
  match findInv invs it.product_id sid with
  | none => .error .notFound
  | some row =>
    let q := row.quantity + (it.quantity : Int)
    if q < 0 then .error .integrityError
    else .ok (setInvQty invs it.product_id sid q)

/-- The item loop of `process_return` over the whole cart. -/
def applyReturnItems (sid : Nat) (invs : List InventoryRow) :
    List Item → Except PosError (List InventoryRow)
  | [] => .ok invs
  | it :: rest =>
    match applyReturnItem sid invs it with
    | .error e => .error e
    | .ok invs2 => applyReturnItems sid invs2 rest

/-- `SalesService.create_sale` (services_sales.py lines 30-103).  Computes the
totals, creates the Transaction row, runs the item loop (TransactionItem rows
plus inventory decrements), credits the user's commission accumulator with
the passed object's value plus the commission, and appends the audit entry.
Interleaving of TransactionItem creation with the decrements does not matter
for the committed state, because a failing decrement rolls everything back:
an `.error` result is the unchanged database. -/
def create_sale (db : DB) (user : User) (store_id : Nat) (items : List Item)
    (ip : Option String) : Except PosError (DB × Txn) :=
  let subtotal := sale_subtotal items
  let vat_amount := calculate_vat subtotal
  let total_amount := subtotal + vat_amount
  let commission := calculate_commission total_amount user.commission_rate
  let txn : Txn :=
    { id := db.nextId, user_id := user.id, store_id := store_id,
      transaction_type := .sale, subtotal := subtotal, vat_amount := vat_amount,
      total_amount := total_amount, commission := commission }
  match applySaleItems store_id db.inventories items with
  | .error e => .error e
  | .ok invs =>
    let txItems := items.map (fun it =>
      ({ transaction_fk := txn.id, product_id := it.product_id, quantity := it.quantity,
         unit_price := it.price, total_price := it.price * (it.quantity : ℚ) } : TxnItem))
    let users := db.users.map (fun u =>
      if u.id == user.id then { u with total_commission := user.total_commission + commission } else u)
    let entry : AuditEntry :=
      { user_id := user.id, action := "sale", desc := .saleDesc total_amount, ip := ip }
    .ok ({ db with
            inventories := invs,
            transactions := db.transactions ++ [txn],
            transactionItems := db.transactionItems ++ txItems,
            users := users,
            auditLogs := entry :: db.auditLogs,
            nextId := db.nextId + 1 }, txn)

/-- `SalesService.process_return` (services_sales.py lines 110-178).  Same
totals as a sale on the same items, stored negated on the new Transaction,
commission zero, inventory incremented at the original transaction's store;
the acting user's commission balance is not touched and the original
transaction is only read for its store. -/
def process_return (db : DB) (original : Txn) (user : User) (items : List Item)
    (ip : Option String) : Except PosError (DB × Txn) :=
  let subtotal := sale_subtotal items
  let vat_amount := calculate_vat subtotal
  let total_amount := subtotal + vat_amount
  let txn : Txn :=
    { id := db.nextId, user_id := user.id, store_id := original.store_id,
      transaction_type := .ret, subtotal := -subtotal, vat_amount := -vat_amount,
      total_amount := -total_amount, commission := 0 }
  match applyReturnItems original.store_id db.inventories items with
  | .error e => .error e
  | .ok invs =>
    let txItems := items.map (fun it =>
      ({ transaction_fk := txn.id, product_id := it.product_id, quantity := it.quantity,
         unit_price := it.price, total_price := it.price * (it.quantity : ℚ) } : TxnItem))
    let entry : AuditEntry :=
      { user_id := user.id, action := "sale", desc := .returnDesc total_amount, ip := ip }
    .ok ({ db with
            inventories := invs,
            transactions := db.transactions ++ [txn],
            transactionItems := db.transactionItems ++ txItems,
            auditLogs := entry :: db.auditLogs,
            nextId := db.nextId + 1 }, txn)

/-- `InventoryService.adjust_inventory` (services_inventory.py lines 19-66):
get-or-create the row at 0, add the signed delta, raise the ValueError
("Inventory quantity cannot be negative") before saving when the result is
negative — the surrounding atomic block then also reverts the row creation —
and otherwise save and audit-log the old and new quantity and the reason. -/
def adjust_inventory (db : DB) (product_id store_id : Nat) (delta : Int)
    (user : User) (reason : String) (ip : Option String) : Except PosError DB :=
  let pair := getOrCreateInv db.inventories product_id store_id
  let oldQ := pair.2
  let newQ := oldQ + delta
  if newQ < 0 then .error .negativeInventory
  else
    let entry : AuditEntry :=
      { user_id := user.id, action := "update",
        desc := .adjustDesc oldQ newQ reason, ip := ip }
    .ok { db with
          inventories := setInvQty pair.1 product_id store_id newQ,
          auditLogs := entry :: db.auditLogs }

/-- `InventoryService.approve_transfer` (services_inventory.py lines
120-174): reject non-pending transfers, lock-read the source row, fail with
the ValueError ("Insufficient inventory at source store") when it holds less
than the transfer quantity, otherwise debit the source, get-or-create and
credit the destination, and mark the transfer approved with approver and
timestamp.  The updated transfer row is returned alongside the database. -/
def approve_transfer (db : DB) (tr : Transfer) (user : User) (now : Nat)
    (ip : Option String) : Except PosError (DB × Transfer) :=
  if tr.status ≠ TransferStatus.pending then .error .transferNotPending
  else
    match findInv db.inventories tr.product_id tr.from_store with
    | none => .error .notFound
    | some fromInv =>
      if fromInv.quantity < (tr.quantity : Int) then .error .insufficientStock
      else
        let invs1 := setInvQty db.inventories tr.product_id tr.from_store
          (fromInv.quantity - (tr.quantity : Int))
        let pair := getOrCreateInv invs1 tr.product_id tr.to_store
        let invs3 := setInvQty pair.1 tr.product_id tr.to_store (pair.2 + (tr.quantity : Int))
        let tr2 : Transfer :=
          { tr with
            status := .approved, approved_by := some user.id,
            approval_date := some now }
        let entry : AuditEntry :=
          { user_id := user.id, action := "approval",
            desc := .transferApproved tr.quantity, ip := ip }
        .ok ({ db with inventories := invs3, auditLogs := entry :: db.auditLogs }, tr2)

/-- `InventoryService.reject_transfer` (services_inventory.py lines 176-210):
reject non-pending transfers, otherwise set status rejected with approver and
timestamp and audit-log; no inventory change. -/
def reject_transfer (db : DB) (tr : Transfer) (user : User) (now : Nat)
    (reason : String) (ip : Option String) : Except PosError (DB × Transfer) :=
  if tr.status ≠ TransferStatus.pending then .error .transferNotPending
  else
    let tr2 : Transfer :=
      { tr with
        status := .rejected, approved_by := some user.id,
        approval_date := some now }
    let entry : AuditEntry :=
      { user_id := user.id, action := "rejection",
        desc := .transferRejected tr.quantity reason, ip := ip }
    .ok ({ db with auditLogs := entry :: db.auditLogs }, tr2)

/-- The module-level names bound in services_inventory.py: its imports
(lines 4-11) and the module globals.  The name `models` is not among them —
the module imports individual names from `.models` but never `models`
itself. -/
def servicesInventoryNames : List String :=
  ["Decimal", "transaction", "timezone", "send_mail", "settings", "logging",
   "Inventory", "InventoryTransfer", "Product", "Store", "AuditLog", "logger",
   "InventoryService"]

/-- `InventoryService.get_low_stock_items` (services_inventory.py lines
212-221).  The body evaluates `models.F('reorder_level')` inside the filter;
`models` is resolved against the module namespace, so when it is unbound the
call raises NameError before producing any queryset.  The intended filter
(quantity at most reorder_level, optionally one store) is the branch guarded
by that name being bound. -/
def get_low_stock_items (db : DB) (store : Option Nat) :
    Except PosError (List InventoryRow) :=
  if "models" ∈ servicesInventoryNames then
    let base := db.inventories.filter (fun r => decide (r.quantity ≤ r.reorder_level))
    .ok (match store with
         | some sid => base.filter (fun r => r.store_id == sid)
         | none => base)
  else .error .nameError

/-- Committed state of a `create_sale` call: `@transaction.atomic` reverts
every write when the call raises. -/
def saleAtomic (db : DB) (user : User) (store_id : Nat) (items : List Item)
    (ip : Option String) : DB :=
  match create_sale db user store_id items ip with
  | .ok p => p.1
  | .error _ => db

/-- Committed state of a `process_return` call. -/
def returnAtomic (db : DB) (original : Txn) (user : User) (items : List Item)
    (ip : Option String) : DB :=
  match process_return db original user items ip with
  | .ok p => p.1
  | .error _ => db

/-- Committed state of an `adjust_inventory` call. -/
def adjustAtomic (db : DB) (product_id store_id : Nat) (delta : Int)
    (user : User) (reason : String) (ip : Option String) : DB :=
  match adjust_inventory db product_id store_id delta user reason ip with
  | .ok db2 => db2
  | .error _ => db

/-- Committed state of an `approve_transfer` call. -/
def approveAtomic (db : DB) (tr : Transfer) (user : User) (now : Nat)
    (ip : Option String) : DB :=
  match approve_transfer db tr user now ip with
  | .ok p => p.1
  | .error _ => db

/-- The engine calls of the consistency claims, with their arguments.  A
sequence of these, applied to a database, is a serialized schedule: the
select-for-update row locks make every concurrent execution equivalent to
such a sequence. -/
inductive OpCall where
  | adjust (product_id store_id : Nat) (delta : Int) (user : User) (reason : String)
  | sale (user : User) (store_id : Nat) (items : List Item)
  | ret (original : Txn) (user : User) (items : List Item)
  | approve (tr : Transfer) (user : User) (now : Nat)

/-- Committed effect of one engine call: the new state on success, the old
state when the call raises and the atomic block rolls back. -/
def applyOp (db : DB) : OpCall → DB
  | .adjust p s d u reason => adjustAtomic db p s d u reason none
  | .sale u s items => saleAtomic db u s items none
  | .ret o u items => returnAtomic db o u items none
  | .approve tr u now => approveAtomic db tr u now none

/-- Whether one engine call succeeds on the given state. -/
def opOk (db : DB) : OpCall → Bool
  | .adjust p s d u reason => exceptOk (adjust_inventory db p s d u reason none)
  | .sale u s items => exceptOk (create_sale db u s items none)
  | .ret o u items => exceptOk (process_return db o u items none)
  | .approve tr u now => exceptOk (approve_transfer db tr u now none)

/-- Run a schedule of engine calls left to right. -/
def runOps (db : DB) (ops : List OpCall) : DB :=
  ops.foldl applyOp db

/-- Total quantity a cart sells of one product (an item may appear more than
once; the engine decrements once per line). -/
def soldSum (items : List Item) (pid : Nat) : Int :=
  ((items.filter (fun it => it.product_id == pid)).map (fun it => (it.quantity : Int))).sum

/-- The signed stock delta one call nominally applies to the (product, store)
key when it succeeds. -/
def nominalDelta (pid sid : Nat) : OpCall → Int
  | .adjust p s d _ _ => if p = pid ∧ s = sid then d else 0
  | .sale _ s items => if s = sid then -soldSum items pid else 0
  | .ret o _ items => if o.store_id = sid then soldSum items pid else 0
  | .approve tr _ _ =>
      (if tr.product_id = pid ∧ tr.to_store = sid then (tr.quantity : Int) else 0)
        - (if tr.product_id = pid ∧ tr.from_store = sid then (tr.quantity : Int) else 0)

/-- The deltas actually applied to one (product, store) key along a schedule:
the nominal delta of each call that succeeds on the state it meets, 0 for a
call that fails (its writes are rolled back). -/
def appliedDeltas (db : DB) (pid sid : Nat) : List OpCall → List Int
  | [] => []
  | op :: rest =>
      (if opOk db op then nominalDelta pid sid op else 0)
        :: appliedDeltas (applyOp db op) pid sid rest

/-- All inventory rows of a table hold a non-negative quantity. -/
def InvListNonNeg (invs : List InventoryRow) : Prop :=
  ∀ r ∈ invs, 0 ≤ r.quantity

/-- The database-wide stock invariant of the spec: quantity at least 0 in
every Inventory row. -/
def InvNonNeg (db : DB) : Prop :=
  InvListNonNeg db.inventories

/-- A staff user with the default 5 percent commission rate of models.py. -/
def exUser : User :=
  { id := 7, commission_rate := 5, total_commission := 0 }

/-- A small concrete database: product 1 with stock 5 and product 3 with
stock 100 at store 1. -/
def exDb : DB :=
  { inventories :=
      [{ product_id := 1, store_id := 1, quantity := 5, reorder_level := 10 },
       { product_id := 3, store_id := 1, quantity := 100, reorder_level := 10 }],
    transactions := [], transactionItems := [], users := [exUser],
    auditLogs := [], nextId := 0 }

/-- A pending transfer of 30 units of product 3 from store 1 to store 2. -/
def exTransfer : Transfer :=
  { id := 1, product_id := 3, from_store := 1, to_store := 2, quantity := 30,
    status := .pending, requested_by := 7, approved_by := none, approval_date := none }

/-- The same transfer already approved. -/
def exTransferDone : Transfer :=
  { exTransfer with status := .approved }

/-- An original sale transaction at store 1, used as return target. -/
def exOrig : Txn :=
  { id := 0, user_id := 7, store_id := 1, transaction_type := .sale,
    subtotal := 0, vat_amount := 0, total_amount := 0, commission := 0 }

/-- The TransactionItem rows a return (or sale) writes for a cart, child of
the transaction with the given id: total_price is stored as
unit_price times quantity, unnegated. -/
def returnItemRows (nid : Nat) (items : List Item) : List TxnItem :=
  items.map (fun it =>
    { transaction_fk := nid, product_id := it.product_id, quantity := it.quantity,
      unit_price := it.price, total_price := it.price * (it.quantity : ℚ) })

/-! ### Helper lemmas about the row-table primitives -/

lemma findInv_nil (p s : Nat) : findInv [] p s = none := rfl

lemma findInv_cons (r : InventoryRow) (t : List InventoryRow) (p s : Nat) :
    findInv (r :: t) p s
      = if r.product_id == p && r.store_id == s then some r else findInv t p s := by
  unfold findInv
  rw [List.find?_cons]
  by_cases hc : (r.product_id == p && r.store_id == s) = true
  · rw [if_pos hc, hc]
  · rw [if_neg hc, Bool.eq_false_iff.2 hc]

lemma setInvQty_cons (r : InventoryRow) (t : List InventoryRow) (p s : Nat) (q : Int) :
    setInvQty (r :: t) p s q
      = (if r.product_id == p && r.store_id == s then { r with quantity := q } else r)
          :: setInvQty t p s q := rfl

lemma findInv_setInvQty (invs : List InventoryRow) (p s : Nat) (q : Int) (p2 s2 : Nat) :
    findInv (setInvQty invs p s q) p2 s2
      = (findInv invs p2 s2).map
          (fun r => if r.product_id == p && r.store_id == s then { r with quantity := q } else r) := by
  induction invs with
  | nil => rfl
  | cons h t ih =>
    rw [setInvQty_cons]
    by_cases hc : (h.product_id == p && h.store_id == s) = true
    · rw [if_pos hc, findInv_cons, findInv_cons]
      by_cases hc2 : (h.product_id == p2 && h.store_id == s2) = true
      · rw [if_pos hc2, if_pos hc2, Option.map_some', if_pos hc]
      · rw [if_neg hc2, if_neg hc2]
        exact ih
    · rw [if_neg hc, findInv_cons, findInv_cons]
      by_cases hc2 : (h.product_id == p2 && h.store_id == s2) = true
      · rw [if_pos hc2, if_pos hc2, Option.map_some', if_neg hc]
      · rw [if_neg hc2, if_neg hc2]
        exact ih

lemma findInv_key {invs : List InventoryRow} {p s : Nat} {r : InventoryRow}
    (h : findInv invs p s = some r) : r.product_id = p ∧ r.store_id = s := by
  unfold findInv at h
  have := List.find?_some h
  simp only [Bool.and_eq_true, beq_iff_eq] at this
  exact this

lemma findInv_mem {invs : List InventoryRow} {p s : Nat} {r : InventoryRow}
    (h : findInv invs p s = some r) : r ∈ invs :=
  List.mem_of_find?_eq_some h

lemma qtyL_setInvQty_self {invs : List InventoryRow} {p s : Nat} (q : Int)
    (hs : (findInv invs p s).isSome) : qtyL (setInvQty invs p s q) p s = q := by
  unfold qtyL
  rw [findInv_setInvQty]
  cases hr : findInv invs p s with
  | none => rw [hr] at hs; simp at hs
  | some r =>
    have hk := findInv_key hr
    simp [Option.map, hk.1, hk.2]

lemma qtyL_setInvQty_ne {p2 s2 p s : Nat} (invs : List InventoryRow) (q : Int)
    (h : ¬(p2 = p ∧ s2 = s)) : qtyL (setInvQty invs p s q) p2 s2 = qtyL invs p2 s2 := by
  unfold qtyL
  rw [findInv_setInvQty]
  cases hr : findInv invs p2 s2 with
  | none => rfl
  | some r =>
    have hk := findInv_key hr
    have hcond : (r.product_id == p && r.store_id == s) = false := by
      rw [Bool.eq_false_iff]
      intro hTrue
      simp only [Bool.and_eq_true, beq_iff_eq] at hTrue
      exact h ⟨hk.1 ▸ hTrue.1, hk.2 ▸ hTrue.2⟩
    simp [Option.map, hcond]

lemma findInv_setInvQty_isSome (invs : List InventoryRow) (p s : Nat) (q : Int) (p2 s2 : Nat) :
    (findInv (setInvQty invs p s q) p2 s2).isSome = (findInv invs p2 s2).isSome := by
  rw [findInv_setInvQty]
  cases findInv invs p2 s2 <;> rfl

lemma findInv_append (l1 l2 : List InventoryRow) (p s : Nat) :
    findInv (l1 ++ l2) p s = (findInv l1 p s).or (findInv l2 p s) := by
  unfold findInv
  exact List.find?_append

lemma getOrCreate_q (invs : List InventoryRow) (p s : Nat) :
    (getOrCreateInv invs p s).2 = qtyL invs p s := by
  unfold getOrCreateInv qtyL
  cases h : findInv invs p s <;> simp [h]

lemma getOrCreate_isSome (invs : List InventoryRow) (p s : Nat) :
    (findInv (getOrCreateInv invs p s).1 p s).isSome := by
  unfold getOrCreateInv
  cases h : findInv invs p s with
  | some r => simp [h]
  | none => simp [findInv_append, h, findInv_cons, findInv_nil]

lemma qtyL_getOrCreate (invs : List InventoryRow) (p s p2 s2 : Nat) :
    qtyL (getOrCreateInv invs p s).1 p2 s2 = qtyL invs p2 s2 := by
  unfold getOrCreateInv
  cases h : findInv invs p s with
  | some r => rfl
  | none =>
    unfold qtyL
    rw [findInv_append, findInv_cons, findInv_nil]
    cases hr : findInv invs p2 s2 with
    | some r => rfl
    | none =>
      by_cases hc : (p == p2 && s == s2) = true
      · simp [hc]
      · simp [hc]

lemma findInv_getOrCreate_isSome (invs : List InventoryRow) (p s p2 s2 : Nat)
    (h : (findInv invs p2 s2).isSome) :
    (findInv (getOrCreateInv invs p s).1 p2 s2).isSome := by
  unfold getOrCreateInv
  cases hf : findInv invs p s with
  | some r => exact h
  | none =>
    rw [findInv_append]
    cases hr : findInv invs p2 s2 with
    | none => rw [hr] at h; simp at h
    | some r => simp [hr]

lemma qtyL_nonneg {invs : List InventoryRow} (h : InvListNonNeg invs) (p s : Nat) :
    0 ≤ qtyL invs p s := by
  unfold qtyL
  cases hr : findInv invs p s with
  | none => exact le_refl 0
  | some r => exact h r (findInv_mem hr)

lemma setInvQty_nonneg {invs : List InventoryRow} {q : Int} (p s : Nat)
    (h : InvListNonNeg invs) (hq : 0 ≤ q) : InvListNonNeg (setInvQty invs p s q) := by
  intro r hr
  unfold setInvQty at hr
  rcases List.mem_map.1 hr with ⟨a, ha, rfl⟩
  by_cases hc : (a.product_id == p && a.store_id == s) = true
  · simp only [if_pos hc]
    exact hq
  · simp only [if_neg hc]
    exact h a ha

lemma getOrCreate_nonneg {invs : List InventoryRow} (p s : Nat)
    (h : InvListNonNeg invs) : InvListNonNeg (getOrCreateInv invs p s).1 := by
  unfold getOrCreateInv
  cases hf : findInv invs p s with
  | some r => exact h
  | none =>
    intro r hr
    rcases List.mem_append.1 hr with hmem | hmem
    · exact h r hmem
    · rcases List.mem_singleton.1 hmem with rfl
      exact le_refl 0

/-! ### Lemmas about the per-item loops of create_sale and process_return -/

lemma soldSum_nil (p : Nat) : soldSum [] p = 0 := rfl

lemma soldSum_cons (it : Item) (rest : List Item) (p : Nat) :
    soldSum (it :: rest) p
      = (if it.product_id == p then (it.quantity : Int) else 0) + soldSum rest p := by
  unfold soldSum
  rw [List.filter_cons]
  by_cases hc : (it.product_id == p) = true
  · rw [if_pos hc, if_pos hc, List.map_cons, List.sum_cons]
  · rw [if_neg hc, if_neg hc, zero_add]

lemma soldSum_eq_zero {items : List Item} {p : Nat}
    (h : ∀ j ∈ items, j.product_id ≠ p) : soldSum items p = 0 := by
  induction items with
  | nil => rfl
  | cons it rest ih =>
    rw [soldSum_cons, if_neg, ih fun j hj => h j (List.mem_cons_of_mem _ hj), add_zero]
    simp only [beq_iff_eq]
    exact h it (List.mem_cons_self it rest)

lemma soldSum_of_nodup {items : List Item} {it : Item}
    (hnd : (items.map Item.product_id).Nodup) (hmem : it ∈ items) :
    soldSum items it.product_id = (it.quantity : Int) := by
  induction items with
  | nil => simp at hmem
  | cons h t ih =>
    rw [List.map_cons, List.nodup_cons] at hnd
    rcases List.mem_cons.1 hmem with rfl | hmem2
    · rw [soldSum_cons, if_pos (by simp), soldSum_eq_zero, add_zero]
      intro j hj heq
      exact hnd.1 (heq ▸ List.mem_map_of_mem Item.product_id hj)
    · rw [soldSum_cons, if_neg, zero_add, ih hnd.2 hmem2]
      simp only [beq_iff_eq]
      intro heq
      exact hnd.1 (heq ▸ List.mem_map_of_mem Item.product_id hmem2)

lemma applySaleItems_ok_qty {sid : Nat} :
    ∀ (items : List Item) (invs invs2 : List InventoryRow),
      applySaleItems sid invs items = .ok invs2 →
      ∀ p s, qtyL invs2 p s = qtyL invs p s - (if s = sid then soldSum items p else 0)
  | [], invs, invs2, h => by
    simp only [applySaleItems, Except.ok.injEq] at h
    subst h
    intro p s
    rw [soldSum_nil]
    simp
  | it :: rest, invs, invs2, h => by
    cases hf : findInv invs it.product_id sid with
    | none => rw [applySaleItems, applySaleItem, hf] at h; exact absurd h (by simp)
    | some row =>
      by_cases hlt : row.quantity - (it.quantity : Int) < 0
      · rw [applySaleItems, applySaleItem, hf] at h
        simp only [if_pos hlt] at h
        exact absurd h (by simp)
      · have h2 : applySaleItems sid
            (setInvQty invs it.product_id sid (row.quantity - (it.quantity : Int))) rest
            = .ok invs2 := by
          rw [applySaleItems, applySaleItem, hf] at h
          simpa only [if_neg hlt] using h
        intro p s
        have ihq := applySaleItems_ok_qty rest _ _ h2 p s
        by_cases hs : s = sid
        · by_cases hp : p = it.product_id
          · have h1 : qtyL (setInvQty invs it.product_id sid (row.quantity - (it.quantity : Int))) p s
                = row.quantity - (it.quantity : Int) := by
              rw [hp, hs]
              exact qtyL_setInvQty_self _ (by rw [hf]; rfl)
            have h0 : qtyL invs p s = row.quantity := by
              rw [hp, hs]
              unfold qtyL
              rw [hf]
            have hsold : soldSum (it :: rest) p = (it.quantity : Int) + soldSum rest p := by
              rw [soldSum_cons, if_pos (by simp [hp])]
            rw [ihq, if_pos hs, if_pos hs, h1, h0, hsold]
            omega
          · have h1 : qtyL (setInvQty invs it.product_id sid (row.quantity - (it.quantity : Int))) p s
                = qtyL invs p s :=
              qtyL_setInvQty_ne _ _ (fun hand => hp hand.1)
            have hsold : soldSum (it :: rest) p = soldSum rest p := by
              rw [soldSum_cons, if_neg (by simp; exact fun he => hp he.symm), zero_add]
            rw [ihq, if_pos hs, if_pos hs, h1, hsold]
        · have h1 : qtyL (setInvQty invs it.product_id sid (row.quantity - (it.quantity : Int))) p s
              = qtyL invs p s :=
            qtyL_setInvQty_ne _ _ (fun hand => hs hand.2)
          rw [ihq, if_neg hs, if_neg hs, h1]

lemma applySaleItems_ok_nonneg {sid : Nat} :
    ∀ (items : List Item) (invs invs2 : List InventoryRow),
      applySaleItems sid invs items = .ok invs2 →
      InvListNonNeg invs → InvListNonNeg invs2
  | [], invs, invs2, h, hnn => by
    simp only [applySaleItems, Except.ok.injEq] at h
    subst h
    exact hnn
  | it :: rest, invs, invs2, h, hnn => by
    cases hf : findInv invs it.product_id sid with
    | none => rw [applySaleItems, applySaleItem, hf] at h; exact absurd h (by simp)
    | some row =>
      by_cases hlt : row.quantity - (it.quantity : Int) < 0
      · rw [applySaleItems, applySaleItem, hf] at h
        simp only [if_pos hlt] at h
        exact absurd h (by simp)
      · have h2 : applySaleItems sid
            (setInvQty invs it.product_id sid (row.quantity - (it.quantity : Int))) rest
            = .ok invs2 := by
          rw [applySaleItems, applySaleItem, hf] at h
          simpa only [if_neg hlt] using h
        exact applySaleItems_ok_nonneg rest _ _ h2
          (setInvQty_nonneg _ _ hnn (by omega))

lemma applySaleItems_insufficient {sid : Nat} :
    ∀ (items : List Item) (invs : List InventoryRow),
      (items.map Item.product_id).Nodup →
      (∀ it ∈ items, (findInv invs it.product_id sid).isSome) →
      (∃ it ∈ items, qtyL invs it.product_id sid < (it.quantity : Int)) →
      applySaleItems sid invs items = .error .integrityError
  | [], invs, _, _, hex => by
    rcases hex with ⟨it, hmem, _⟩
    simp at hmem
  | it :: rest, invs, hnd, hpres, hex => by
    have hsome := hpres it (List.mem_cons_self it rest)
    cases hf : findInv invs it.product_id sid with
    | none => rw [hf] at hsome; simp at hsome
    | some row =>
      by_cases hlt : row.quantity - (it.quantity : Int) < 0
      · rw [applySaleItems, applySaleItem, hf]
        simp only [if_pos hlt]
      · rw [applySaleItems, applySaleItem, hf]
        simp only [if_neg hlt]
        rw [List.map_cons, List.nodup_cons] at hnd
        apply applySaleItems_insufficient rest
        · exact hnd.2
        · intro j hj
          rw [findInv_setInvQty_isSome]
          exact hpres j (List.mem_cons_of_mem _ hj)
        · rcases hex with ⟨f, hfmem, hflt⟩
          rcases List.mem_cons.1 hfmem with rfl | hfmem2
          · exfalso
            unfold qtyL at hflt
            rw [hf] at hflt
            have h3 : row.quantity < (f.quantity : Int) := hflt
            omega
          · refine ⟨f, hfmem2, ?_⟩
            have hne : f.product_id ≠ it.product_id := by
              intro heq
              exact hnd.1 (heq ▸ List.mem_map_of_mem Item.product_id hfmem2)
            rw [qtyL_setInvQty_ne _ _ (fun hand => hne hand.1)]
            exact hflt

lemma applySaleItems_sufficient {sid : Nat} :
    ∀ (items : List Item) (invs : List InventoryRow),
      (items.map Item.product_id).Nodup →
      (∀ it ∈ items, (findInv invs it.product_id sid).isSome) →
      (∀ it ∈ items, (it.quantity : Int) ≤ qtyL invs it.product_id sid) →
      ∃ invs2, applySaleItems sid invs items = .ok invs2
  | [], invs, _, _, _ => ⟨invs, rfl⟩
  | it :: rest, invs, hnd, hpres, hsuff => by
    have hsome := hpres it (List.mem_cons_self it rest)
    cases hf : findInv invs it.product_id sid with
    | none => rw [hf] at hsome; simp at hsome
    | some row =>
      have hle := hsuff it (List.mem_cons_self it rest)
      have hq : qtyL invs it.product_id sid = row.quantity := by
        unfold qtyL; rw [hf]
      have hlt : ¬ row.quantity - (it.quantity : Int) < 0 := by omega
      rw [List.map_cons, List.nodup_cons] at hnd
      have hstep := applySaleItems_sufficient rest
        (setInvQty invs it.product_id sid (row.quantity - (it.quantity : Int)))
        hnd.2
        (fun j hj => by
          rw [findInv_setInvQty_isSome]
          exact hpres j (List.mem_cons_of_mem _ hj))
        (fun j hj => by
          have hne : j.product_id ≠ it.product_id := by
            intro heq
            exact hnd.1 (heq ▸ List.mem_map_of_mem Item.product_id hj)
          rw [qtyL_setInvQty_ne _ _ (fun hand => hne hand.1)]
          exact hsuff j (List.mem_cons_of_mem _ hj))
      rcases hstep with ⟨invs2, hstep⟩
      refine ⟨invs2, ?_⟩
      rw [applySaleItems, applySaleItem, hf]
      simp only [if_neg hlt]
      exact hstep

lemma applyReturnItems_ok_qty {sid : Nat} :
    ∀ (items : List Item) (invs invs2 : List InventoryRow),
      applyReturnItems sid invs items = .ok invs2 →
      ∀ p s, qtyL invs2 p s = qtyL invs p s + (if s = sid then soldSum items p else 0)
  | [], invs, invs2, h => by
    simp only [applyReturnItems, Except.ok.injEq] at h
    subst h
    intro p s
    rw [soldSum_nil]
    simp
  | it :: rest, invs, invs2, h => by
    cases hf : findInv invs it.product_id sid with
    | none => rw [applyReturnItems, applyReturnItem, hf] at h; exact absurd h (by simp)
    | some row =>
      by_cases hlt : row.quantity + (it.quantity : Int) < 0
      · rw [applyReturnItems, applyReturnItem, hf] at h
        simp only [if_pos hlt] at h
        exact absurd h (by simp)
      · have h2 : applyReturnItems sid
            (setInvQty invs it.product_id sid (row.quantity + (it.quantity : Int))) rest
            = .ok invs2 := by
          rw [applyReturnItems, applyReturnItem, hf] at h
          simpa only [if_neg hlt] using h
        intro p s
        have ihq := applyReturnItems_ok_qty rest _ _ h2 p s
        by_cases hs : s = sid
        · by_cases hp : p = it.product_id
          · have h1 : qtyL (setInvQty invs it.product_id sid (row.quantity + (it.quantity : Int))) p s
                = row.quantity + (it.quantity : Int) := by
              rw [hp, hs]
              exact qtyL_setInvQty_self _ (by rw [hf]; rfl)
            have h0 : qtyL invs p s = row.quantity := by
              rw [hp, hs]
              unfold qtyL
              rw [hf]
            have hsold : soldSum (it :: rest) p = (it.quantity : Int) + soldSum rest p := by
              rw [soldSum_cons, if_pos (by simp [hp])]
            rw [ihq, if_pos hs, if_pos hs, h1, h0, hsold]
            omega
          · have h1 : qtyL (setInvQty invs it.product_id sid (row.quantity + (it.quantity : Int))) p s
                = qtyL invs p s :=
              qtyL_setInvQty_ne _ _ (fun hand => hp hand.1)
            have hsold : soldSum (it :: rest) p = soldSum rest p := by
              rw [soldSum_cons, if_neg (by simp; exact fun he => hp he.symm), zero_add]
            rw [ihq, if_pos hs, if_pos hs, h1, hsold]
        · have h1 : qtyL (setInvQty invs it.product_id sid (row.quantity + (it.quantity : Int))) p s
              = qtyL invs p s :=
            qtyL_setInvQty_ne _ _ (fun hand => hs hand.2)
          rw [ihq, if_neg hs, if_neg hs, h1]

lemma applyReturnItems_ok_nonneg {sid : Nat} :
    ∀ (items : List Item) (invs invs2 : List InventoryRow),
      applyReturnItems sid invs items = .ok invs2 →
      InvListNonNeg invs → InvListNonNeg invs2
  | [], invs, invs2, h, hnn => by
    simp only [applyReturnItems, Except.ok.injEq] at h
    subst h
    exact hnn
  | it :: rest, invs, invs2, h, hnn => by
    cases hf : findInv invs it.product_id sid with
    | none => rw [applyReturnItems, applyReturnItem, hf] at h; exact absurd h (by simp)
    | some row =>
      by_cases hlt : row.quantity + (it.quantity : Int) < 0
      · rw [applyReturnItems, applyReturnItem, hf] at h
        simp only [if_pos hlt] at h
        exact absurd h (by simp)
      · have h2 : applyReturnItems sid
            (setInvQty invs it.product_id sid (row.quantity + (it.quantity : Int))) rest
            = .ok invs2 := by
          rw [applyReturnItems, applyReturnItem, hf] at h
          simpa only [if_neg hlt] using h
        have hrow : 0 ≤ row.quantity := hnn row (findInv_mem hf)
        exact applyReturnItems_ok_nonneg rest _ _ h2
          (setInvQty_nonneg _ _ hnn (by omega))

lemma applyReturnItems_total {sid : Nat} :
    ∀ (items : List Item) (invs : List InventoryRow),
      (∀ it ∈ items, (findInv invs it.product_id sid).isSome) →
      InvListNonNeg invs →
      ∃ invs2, applyReturnItems sid invs items = .ok invs2
  | [], invs, _, _ => ⟨invs, rfl⟩
  | it :: rest, invs, hpres, hnn => by
    have hsome := hpres it (List.mem_cons_self it rest)
    cases hf : findInv invs it.product_id sid with
    | none => rw [hf] at hsome; simp at hsome
    | some row =>
      have hrow : 0 ≤ row.quantity := hnn row (findInv_mem hf)
      have hlt : ¬ row.quantity + (it.quantity : Int) < 0 := by omega
      have hstep := applyReturnItems_total rest
        (setInvQty invs it.product_id sid (row.quantity + (it.quantity : Int)))
        (fun j hj => by
          rw [findInv_setInvQty_isSome]
          exact hpres j (List.mem_cons_of_mem _ hj))
        (setInvQty_nonneg _ _ hnn (by omega))
      rcases hstep with ⟨invs2, hstep⟩
      refine ⟨invs2, ?_⟩
      rw [applyReturnItems, applyReturnItem, hf]
      simp only [if_neg hlt]
      exact hstep

/-! ### Characterizations of the four engine operations -/

lemma adjust_eq (db : DB) (pid sid : Nat) (delta : Int) (u : User) (reason : String)
    (ip : Option String) :
    adjust_inventory db pid sid delta u reason ip
      = if qtyL db.inventories pid sid + delta < 0 then .error .negativeInventory
        else .ok { db with
              inventories := setInvQty (getOrCreateInv db.inventories pid sid).1 pid sid
                (qtyL db.inventories pid sid + delta),
              auditLogs :=
                ({ user_id := u.id, action := "update",
                   desc := .adjustDesc (qtyL db.inventories pid sid)
                     (qtyL db.inventories pid sid + delta) reason, ip := ip } : AuditEntry)
                  :: db.auditLogs } := by
  simp only [adjust_inventory, getOrCreate_q]

lemma create_sale_ok_eq {db : DB} {u : User} {sid : Nat} {items : List Item}
    {ip : Option String} {db2 : DB} {t : Txn}
    (h : create_sale db u sid items ip = .ok (db2, t)) :
    t = { id := db.nextId, user_id := u.id, store_id := sid, transaction_type := .sale,
          subtotal := sale_subtotal items,
          vat_amount := calculate_vat (sale_subtotal items),
          total_amount := sale_subtotal items + calculate_vat (sale_subtotal items),
          commission := calculate_commission
            (sale_subtotal items + calculate_vat (sale_subtotal items)) u.commission_rate }
      ∧ applySaleItems sid db.inventories items = .ok db2.inventories
      ∧ db2.transactions = db.transactions ++ [t]
      ∧ db2.transactionItems = db.transactionItems ++ items.map (fun it =>
          ({ transaction_fk := db.nextId, product_id := it.product_id,
             quantity := it.quantity, unit_price := it.price,
             total_price := it.price * (it.quantity : ℚ) } : TxnItem))
      ∧ db2.users = db.users.map (fun uu =>
          if uu.id == u.id
          then { uu with total_commission := u.total_commission + t.commission }
          else uu)
      ∧ db2.auditLogs =
          ({ user_id := u.id, action := "sale",
             desc := .saleDesc (sale_subtotal items + calculate_vat (sale_subtotal items)),
             ip := ip } : AuditEntry) :: db.auditLogs := by
  unfold create_sale at h
  cases hfold : applySaleItems sid db.inventories items with
  | error e =>
    rw [hfold] at h
    exact absurd h (by simp)
  | ok invs =>
    rw [hfold] at h
    simp only [Except.ok.injEq, Prod.mk.injEq] at h
    obtain ⟨hdb, ht⟩ := h
    subst ht
    subst hdb
    exact ⟨rfl, rfl, rfl, rfl, rfl, rfl⟩

lemma process_return_ok_eq {db : DB} {orig : Txn} {u : User} {items : List Item}
    {ip : Option String} {db2 : DB} {t : Txn}
    (h : process_return db orig u items ip = .ok (db2, t)) :
    t = { id := db.nextId, user_id := u.id, store_id := orig.store_id,
          transaction_type := .ret,
          subtotal := -sale_subtotal items,
          vat_amount := -calculate_vat (sale_subtotal items),
          total_amount := -(sale_subtotal items + calculate_vat (sale_subtotal items)),
          commission := 0 }
      ∧ applyReturnItems orig.store_id db.inventories items = .ok db2.inventories
      ∧ db2.transactions = db.transactions ++ [t]
      ∧ db2.transactionItems = db.transactionItems ++ items.map (fun it =>
          ({ transaction_fk := db.nextId, product_id := it.product_id,
             quantity := it.quantity, unit_price := it.price,
             total_price := it.price * (it.quantity : ℚ) } : TxnItem))
      ∧ db2.users = db.users := by
  unfold process_return at h
  cases hfold : applyReturnItems orig.store_id db.inventories items with
  | error e =>
    rw [hfold] at h
    exact absurd h (by simp)
  | ok invs =>
    rw [hfold] at h
    simp only [Except.ok.injEq, Prod.mk.injEq] at h
    obtain ⟨hdb, ht⟩ := h
    subst ht
    subst hdb
    exact ⟨rfl, rfl, rfl, rfl, rfl⟩

lemma approve_ok_eq {db : DB} {tr : Transfer} {u : User} {now : Nat}
    {ip : Option String} {db2 : DB} {tr2 : Transfer}
    (h : approve_transfer db tr u now ip = .ok (db2, tr2)) :
    tr.status = .pending ∧
    ∃ fromInv, findInv db.inventories tr.product_id tr.from_store = some fromInv ∧
      ¬ fromInv.quantity < (tr.quantity : Int) ∧
      db2.inventories =
        setInvQty
          (getOrCreateInv
            (setInvQty db.inventories tr.product_id tr.from_store
              (fromInv.quantity - (tr.quantity : Int)))
            tr.product_id tr.to_store).1
          tr.product_id tr.to_store
          ((getOrCreateInv
            (setInvQty db.inventories tr.product_id tr.from_store
              (fromInv.quantity - (tr.quantity : Int)))
            tr.product_id tr.to_store).2 + (tr.quantity : Int)) ∧
      tr2 = { tr with
              status := .approved, approved_by := some u.id,
              approval_date := some now } := by
  unfold approve_transfer at h
  split at h
  next hst => exact absurd h (by simp)
  next hst =>
    push_neg at hst
    split at h
    next hf => exact absurd h (by simp)
    next fromInv hf =>
      split at h
      next hlt => exact absurd h (by simp)
      next hlt =>
        simp only [Except.ok.injEq, Prod.mk.injEq] at h
        obtain ⟨hdb, ht⟩ := h
        subst ht
        subst hdb
        exact ⟨hst, fromInv, hf, hlt, rfl, rfl⟩

lemma reject_ok_eq {db : DB} {tr : Transfer} {u : User} {now : Nat} {reason : String}
    {ip : Option String} {db2 : DB} {tr2 : Transfer}
    (h : reject_transfer db tr u now reason ip = .ok (db2, tr2)) :
    tr.status = .pending ∧
    tr2 = { tr with
            status := .rejected, approved_by := some u.id,
            approval_date := some now } ∧
    db2.inventories = db.inventories := by
  unfold reject_transfer at h
  by_cases hst : tr.status ≠ TransferStatus.pending
  · rw [if_pos hst] at h
    exact absurd h (by simp)
  · rw [if_neg hst] at h
    push_neg at hst
    simp only [Except.ok.injEq, Prod.mk.injEq] at h
    obtain ⟨hdb, ht⟩ := h
    subst ht
    subst hdb
    exact ⟨hst, rfl, rfl⟩

lemma approve_ok_qty {db : DB} {tr : Transfer} {u : User} {now : Nat}
    {ip : Option String} {db2 : DB} {tr2 : Transfer}
    (h : approve_transfer db tr u now ip = .ok (db2, tr2)) (p s : Nat) :
    qtyL db2.inventories p s
      = qtyL db.inventories p s
        + (if tr.product_id = p ∧ tr.to_store = s then (tr.quantity : Int) else 0)
        - (if tr.product_id = p ∧ tr.from_store = s then (tr.quantity : Int) else 0) := by
  obtain ⟨-, fromInv, hf, hlt, hinvs, -⟩ := approve_ok_eq h
  have hq0 : qtyL db.inventories tr.product_id tr.from_store = fromInv.quantity := by
    unfold qtyL
    rw [hf]
  by_cases hto : tr.product_id = p ∧ tr.to_store = s
  · obtain ⟨hp, hs⟩ := hto
    subst hp; subst hs
    rw [hinvs, qtyL_setInvQty_self _ (getOrCreate_isSome _ _ _), getOrCreate_q]
    by_cases hfs : tr.from_store = tr.to_store
    · rw [← hfs, qtyL_setInvQty_self _ (by rw [hf]; rfl), hq0, if_pos ⟨rfl, rfl⟩]
      omega
    · rw [qtyL_setInvQty_ne _ _ (fun hand => hfs hand.2.symm),
        if_pos ⟨rfl, rfl⟩, if_neg (fun hand => hfs hand.2)]
      omega
  · by_cases hfrom : tr.product_id = p ∧ tr.from_store = s
    · obtain ⟨hp, hs⟩ := hfrom
      rw [← hp, ← hs] at hto ⊢
      rw [hinvs,
        qtyL_setInvQty_ne _ _ (fun hand => hto ⟨rfl, hand.2.symm⟩),
        qtyL_getOrCreate, qtyL_setInvQty_self _ (by rw [hf]; rfl),
        if_neg hto, if_pos ⟨rfl, rfl⟩, hq0]
      omega
    · rw [hinvs, qtyL_setInvQty_ne _ _ (fun hand => hto ⟨hand.1.symm, hand.2.symm⟩),
        qtyL_getOrCreate,
        qtyL_setInvQty_ne _ _ (fun hand => hfrom ⟨hand.1.symm, hand.2.symm⟩),
        if_neg hto, if_neg hfrom]
      omega

lemma approve_ok_nonneg {db : DB} {tr : Transfer} {u : User} {now : Nat}
    {ip : Option String} {db2 : DB} {tr2 : Transfer}
    (h : approve_transfer db tr u now ip = .ok (db2, tr2))
    (hnn : InvListNonNeg db.inventories) : InvListNonNeg db2.inventories := by
  obtain ⟨-, fromInv, hf, hlt, hinvs, -⟩ := approve_ok_eq h
  have h1 : InvListNonNeg (setInvQty db.inventories tr.product_id tr.from_store
      (fromInv.quantity - (tr.quantity : Int))) :=
    setInvQty_nonneg _ _ hnn (by omega)
  have h2 : InvListNonNeg (getOrCreateInv
      (setInvQty db.inventories tr.product_id tr.from_store
        (fromInv.quantity - (tr.quantity : Int)))
      tr.product_id tr.to_store).1 :=
    getOrCreate_nonneg _ _ h1
  have h3 : (0 : Int) ≤ (getOrCreateInv
      (setInvQty db.inventories tr.product_id tr.from_store
        (fromInv.quantity - (tr.quantity : Int)))
      tr.product_id tr.to_store).2 := by
    rw [getOrCreate_q]
    exact qtyL_nonneg h1 _ _
  rw [hinvs]
  exact setInvQty_nonneg _ _ h2 (by omega)

/-! ### The per-operation step lemma of the stock ledger -/

lemma applyOp_step (db : DB) (op : OpCall) (pid sid : Nat) (hnn : InvNonNeg db) :
    InvNonNeg (applyOp db op) ∧
    qtyOf (applyOp db op) pid sid
      = qtyOf db pid sid + (if opOk db op then nominalDelta pid sid op else 0) := by
  cases op with
  | adjust pa sa d u reason =>
    have he := adjust_eq db pa sa d u reason none
    by_cases hneg : qtyL db.inventories pa sa + d < 0
    · rw [if_pos hneg] at he
      constructor
      · simpa only [applyOp, adjustAtomic, he] using hnn
      · simp [applyOp, adjustAtomic, opOk, exceptOk, he]
    · rw [if_neg hneg] at he
      have h1 : InvListNonNeg (setInvQty (getOrCreateInv db.inventories pa sa).1 pa sa
          (qtyL db.inventories pa sa + d)) :=
        setInvQty_nonneg _ _ (getOrCreate_nonneg _ _ hnn) (by omega)
      constructor
      · simpa only [applyOp, adjustAtomic, he] using h1
      · simp only [applyOp, adjustAtomic, he, opOk, exceptOk, qtyOf, nominalDelta]
        rw [if_pos trivial]
        by_cases hkey : pa = pid ∧ sa = sid
        · obtain ⟨hk1, hk2⟩ := hkey
          subst hk1; subst hk2
          rw [qtyL_setInvQty_self _ (getOrCreate_isSome _ _ _), if_pos ⟨rfl, rfl⟩]
        · rw [qtyL_setInvQty_ne _ _ (fun hand => hkey ⟨hand.1.symm, hand.2.symm⟩),
            qtyL_getOrCreate, if_neg hkey, add_zero]
  | sale u sa items =>
    cases hres : create_sale db u sa items none with
    | error e =>
      constructor
      · simpa only [applyOp, saleAtomic, hres] using hnn
      · simp [applyOp, saleAtomic, opOk, exceptOk, hres]
    | ok pr =>
      obtain ⟨db2, t⟩ := pr
      obtain ⟨-, hfold, -, -, -, -⟩ := create_sale_ok_eq hres
      constructor
      · have h2 := applySaleItems_ok_nonneg items _ _ hfold hnn
        simpa only [applyOp, saleAtomic, hres] using h2
      · have hq := applySaleItems_ok_qty items _ _ hfold pid sid
        simp only [applyOp, saleAtomic, hres, opOk, exceptOk, qtyOf, nominalDelta]
        rw [if_pos trivial, hq]
        by_cases hs : sa = sid
        · rw [if_pos hs.symm, if_pos hs]
          omega
        · rw [if_neg (fun he2 => hs he2.symm), if_neg hs]
          omega
  | ret o u items =>
    cases hres : process_return db o u items none with
    | error e =>
      constructor
      · simpa only [applyOp, returnAtomic, hres] using hnn
      · simp [applyOp, returnAtomic, opOk, exceptOk, hres]
    | ok pr =>
      obtain ⟨db2, t⟩ := pr
      obtain ⟨-, hfold, -, -, -⟩ := process_return_ok_eq hres
      constructor
      · have h2 := applyReturnItems_ok_nonneg items _ _ hfold hnn
        simpa only [applyOp, returnAtomic, hres] using h2
      · have hq := applyReturnItems_ok_qty items _ _ hfold pid sid
        simp only [applyOp, returnAtomic, hres, opOk, exceptOk, qtyOf, nominalDelta]
        rw [if_pos trivial, hq]
        by_cases hs : o.store_id = sid
        · rw [if_pos hs.symm, if_pos hs]
        · rw [if_neg (fun he2 => hs he2.symm), if_neg hs]
  | approve tr u now =>
    cases hres : approve_transfer db tr u now none with
    | error e =>
      constructor
      · simpa only [applyOp, approveAtomic, hres] using hnn
      · simp [applyOp, approveAtomic, opOk, exceptOk, hres]
    | ok pr =>
      obtain ⟨db2, tr2⟩ := pr
      constructor
      · have h2 := approve_ok_nonneg hres hnn
        simpa only [applyOp, approveAtomic, hres] using h2
      · have hq := approve_ok_qty hres pid sid
        simp only [applyOp, approveAtomic, hres, opOk, exceptOk, qtyOf, nominalDelta]
        rw [if_pos trivial, hq]
        omega

/-! ### Arithmetic helpers -/

lemma foldl_add_map (f : Item → ℚ) :
    ∀ (items : List Item) (a : ℚ),
      items.foldl (fun s it => s + f it) a = a + (items.map f).sum
  | [], a => by simp
  | it :: rest, a => by
    rw [List.foldl_cons, foldl_add_map f rest (a + f it), List.map_cons, List.sum_cons]
    ring

lemma sale_subtotal_eq_sum (items : List Item) :
    sale_subtotal items = (items.map (fun it => it.price * (it.quantity : ℚ))).sum := by
  unfold sale_subtotal
  rw [foldl_add_map (fun it => it.price * (it.quantity : ℚ)) items 0, zero_add]

/-! ### The claims -/

/-- Claim C2: for every sequence of adjust_inventory, create_sale,
process_return and approve_transfer operations applied to one
(product, store) pair, the Inventory quantity after each operation equals
the initial quantity plus the algebraic sum of the deltas applied so far
(failed operations applying no delta), and is never negative at any point.
The statement quantifies over every schedule, hence over every prefix, so
the invariant holds after each operation. -/
theorem claim_C2 (db : DB) (ops : List OpCall) (pid sid : Nat) (hnn : InvNonNeg db) :
    InvNonNeg (runOps db ops) ∧
    0 ≤ qtyOf (runOps db ops) pid sid ∧
    qtyOf (runOps db ops) pid sid
      = qtyOf db pid sid + (appliedDeltas db pid sid ops).sum := by
  induction ops generalizing db with
  | nil =>
    exact ⟨hnn, qtyL_nonneg hnn _ _, by simp [runOps, appliedDeltas]⟩
  | cons op rest ih =>
    have hstep := applyOp_step db op pid sid hnn
    obtain ⟨h1, h2, h3⟩ := ih (applyOp db op) hstep.1
    have hrun : runOps db (op :: rest) = runOps (applyOp db op) rest := rfl
    refine ⟨by rw [hrun]; exact h1, by rw [hrun]; exact h2, ?_⟩
    rw [hrun, h3, hstep.2]
    simp only [appliedDeltas, List.sum_cons]
    ring

/-- Witness for claim C2 at a concrete database and schedule. -/
theorem claim_C2_witness :
    InvNonNeg (runOps exDb [OpCall.adjust 1 1 3 exUser "recount"]) ∧
    0 ≤ qtyOf (runOps exDb [OpCall.adjust 1 1 3 exUser "recount"]) 1 1 ∧
    qtyOf (runOps exDb [OpCall.adjust 1 1 3 exUser "recount"]) 1 1
      = qtyOf exDb 1 1 + (appliedDeltas exDb 1 1 [OpCall.adjust 1 1 3 exUser "recount"]).sum :=
  claim_C2 exDb [OpCall.adjust 1 1 3 exUser "recount"] 1 1
    (by show ∀ r ∈ exDb.inventories, 0 ≤ r.quantity; decide)

/-- Claim C1, counterexample to the claim as stated: on a cart whose line
item quantity (6) exceeds the stock (5), create_sale fails — but with the
database integrity error of the quantity check constraint, not with
InsufficientStock: the service performs no explicit stock check. -/
theorem claim_C1_counterexample :
    create_sale exDb exUser 1 [{ product_id := 1, quantity := 6, price := 2 }] none
        = .error .integrityError
      ∧ PosError.integrityError ≠ PosError.insufficientStock :=
  ⟨rfl, by decide⟩

/-- Claim C1 (amended): when some line item's quantity exceeds the current
(product, store) Inventory quantity, the whole create_sale call aborts —
the committed state is the unchanged database, so no Transaction,
TransactionItem or Inventory write and no commission change survive — but
the failure is the database integrity error from the quantity >= 0 check
constraint rather than InsufficientStock; on success every line item's
(product, store) quantity is decremented by exactly that item's quantity,
exactly once, and no other key changes. -/
theorem claim_C1_amended (db : DB) (user : User) (sid : Nat) (items : List Item)
    (ip : Option String)
    (hnd : (items.map Item.product_id).Nodup)
    (hpres : ∀ it ∈ items, (findInv db.inventories it.product_id sid).isSome) :
    ((∃ it ∈ items, qtyOf db it.product_id sid < (it.quantity : Int)) →
      create_sale db user sid items ip = .error .integrityError ∧
      saleAtomic db user sid items ip = db) ∧
    ((∀ it ∈ items, (it.quantity : Int) ≤ qtyOf db it.product_id sid) →
      ∃ p, create_sale db user sid items ip = .ok p ∧
        (∀ it ∈ items,
          qtyOf p.1 it.product_id sid = qtyOf db it.product_id sid - (it.quantity : Int)) ∧
        (∀ p2 s2, ¬(s2 = sid ∧ p2 ∈ items.map Item.product_id) →
          qtyOf p.1 p2 s2 = qtyOf db p2 s2)) := by
  constructor
  · intro hex
    have herr : applySaleItems sid db.inventories items = .error .integrityError :=
      applySaleItems_insufficient items db.inventories hnd hpres hex
    have hcs : create_sale db user sid items ip = .error .integrityError := by
      simp only [create_sale, herr]
    exact ⟨hcs, by simp only [saleAtomic, hcs]⟩
  · intro hsuff
    obtain ⟨invs2, hfold⟩ := applySaleItems_sufficient items db.inventories hnd hpres hsuff
    cases hres : create_sale db user sid items ip with
    | error e =>
      exfalso
      simp only [create_sale, hfold] at hres
      exact absurd hres (by simp)
    | ok p =>
      obtain ⟨db2, t⟩ := p
      obtain ⟨-, hfold2, -, -, -, -⟩ := create_sale_ok_eq hres
      refine ⟨(db2, t), rfl, ?_, ?_⟩
      · intro it hmem
        have hq := applySaleItems_ok_qty items _ _ hfold2 it.product_id sid
        have h2 : qtyL db2.inventories it.product_id sid
            = qtyL db.inventories it.product_id sid - (it.quantity : Int) := by
          rw [hq, if_pos rfl, soldSum_of_nodup hnd hmem]
        exact h2
      · intro p2 s2 hnot
        have hq := applySaleItems_ok_qty items _ _ hfold2 p2 s2
        by_cases hs : s2 = sid
        · have hnm : p2 ∉ items.map Item.product_id := fun hm => hnot ⟨hs, hm⟩
          have hz : soldSum items p2 = 0 :=
            soldSum_eq_zero (fun j hj he => hnm (he ▸ List.mem_map_of_mem Item.product_id hj))
          have h2 : qtyL db2.inventories p2 s2 = qtyL db.inventories p2 s2 := by
            rw [hq, if_pos hs, hz, sub_zero]
          exact h2
        · have h2 : qtyL db2.inventories p2 s2 = qtyL db.inventories p2 s2 := by
            rw [hq, if_neg hs, sub_zero]
          exact h2

/-- Witness for the amended claim C1, at the concrete failing cart. -/
theorem claim_C1_witness :
    create_sale exDb exUser 1 [{ product_id := 1, quantity := 6, price := 2 }] none
        = .error .integrityError
      ∧ saleAtomic exDb exUser 1 [{ product_id := 1, quantity := 6, price := 2 }] none = exDb :=
  (claim_C1_amended exDb exUser 1 [{ product_id := 1, quantity := 6, price := 2 }] none
      (by decide) (by decide)).1
    ⟨{ product_id := 1, quantity := 6, price := 2 }, by decide, by decide⟩

/-- Claim C3: approving a pending transfer between distinct stores either
fails with InsufficientStock when the source holds less than the transfer
quantity — leaving the whole database (hence the transfer row) unchanged —
or succeeds, debiting the source key and crediting the destination key
(created at 0 when absent) by the transfer quantity, touching no other
inventory key, and marking the transfer approved with approver and
timestamp. -/
theorem claim_C3 (db : DB) (tr : Transfer) (u : User) (now : Nat) (ip : Option String)
    (hpend : tr.status = .pending)
    (hsome : (findInv db.inventories tr.product_id tr.from_store).isSome)
    (hne : tr.from_store ≠ tr.to_store) :
    (qtyOf db tr.product_id tr.from_store < (tr.quantity : Int) →
      approve_transfer db tr u now ip = .error .insufficientStock ∧
      approveAtomic db tr u now ip = db) ∧
    ((tr.quantity : Int) ≤ qtyOf db tr.product_id tr.from_store →
      ∃ p, approve_transfer db tr u now ip = .ok p ∧
        qtyOf p.1 tr.product_id tr.from_store
          = qtyOf db tr.product_id tr.from_store - (tr.quantity : Int) ∧
        qtyOf p.1 tr.product_id tr.to_store
          = qtyOf db tr.product_id tr.to_store + (tr.quantity : Int) ∧
        (∀ p2 s2, ¬(p2 = tr.product_id ∧ s2 = tr.from_store) →
          ¬(p2 = tr.product_id ∧ s2 = tr.to_store) →
          qtyOf p.1 p2 s2 = qtyOf db p2 s2) ∧
        p.2.status = .approved ∧ p.2.approved_by = some u.id ∧
        p.2.approval_date = some now ∧ p.2.quantity = tr.quantity ∧
        p.2.from_store = tr.from_store ∧ p.2.to_store = tr.to_store) := by
  constructor
  · intro hlt
    have herr : approve_transfer db tr u now ip = .error .insufficientStock := by
      unfold approve_transfer
      rw [if_neg (not_not_intro hpend)]
      split
      next hf => rw [hf] at hsome; simp at hsome
      next fromInv hf =>
        have hlt2 : fromInv.quantity < (tr.quantity : Int) := by
          have hq : qtyOf db tr.product_id tr.from_store = fromInv.quantity := by
            unfold qtyOf qtyL
            rw [hf]
          rw [hq] at hlt
          exact hlt
        rw [if_pos hlt2]
    exact ⟨herr, by simp only [approveAtomic, herr]⟩
  · intro hge
    cases hres : approve_transfer db tr u now ip with
    | error e =>
      exfalso
      unfold approve_transfer at hres
      rw [if_neg (not_not_intro hpend)] at hres
      split at hres
      next hf => rw [hf] at hsome; simp at hsome
      next fromInv hf =>
        have hq : qtyOf db tr.product_id tr.from_store = fromInv.quantity := by
          unfold qtyOf qtyL
          rw [hf]
        rw [hq] at hge
        rw [if_neg (by omega)] at hres
        exact absurd hres (by simp)
    | ok p =>
      obtain ⟨db2, tr2⟩ := p
      obtain ⟨-, fromInv, hf, hlt, -, htr2⟩ := approve_ok_eq hres
      have hq1 := approve_ok_qty hres tr.product_id tr.from_store
      have hq2 := approve_ok_qty hres tr.product_id tr.to_store
      refine ⟨(db2, tr2), rfl, ?_, ?_, ?_, ?_, ?_, ?_, ?_, ?_, ?_⟩
      · have h2 : qtyL db2.inventories tr.product_id tr.from_store
            = qtyL db.inventories tr.product_id tr.from_store - (tr.quantity : Int) := by
          rw [hq1, if_neg (fun hand => hne hand.2.symm), if_pos ⟨rfl, rfl⟩]
          omega
        exact h2
      · have h2 : qtyL db2.inventories tr.product_id tr.to_store
            = qtyL db.inventories tr.product_id tr.to_store + (tr.quantity : Int) := by
          rw [hq2, if_pos ⟨rfl, rfl⟩, if_neg (fun hand => hne hand.2)]
          omega
        exact h2
      · intro p2 s2 hnf hnt
        have hq3 := approve_ok_qty hres p2 s2
        have h2 : qtyL db2.inventories p2 s2 = qtyL db.inventories p2 s2 := by
          rw [hq3, if_neg (fun hand => hnt ⟨hand.1.symm, hand.2.symm⟩),
            if_neg (fun hand => hnf ⟨hand.1.symm, hand.2.symm⟩)]
          omega
        exact h2
      · rw [htr2]
      · rw [htr2]
      · rw [htr2]
      · rw [htr2]
      · rw [htr2]
      · rw [htr2]

/-- Witness for claim C3: approving the concrete pending transfer moves 30
units of product 3 from store 1 to store 2. -/
theorem claim_C3_witness :
    ∃ p, approve_transfer exDb exTransfer exUser 4 none = .ok p ∧
      qtyOf p.1 3 1 = qtyOf exDb 3 1 - 30 ∧
      qtyOf p.1 3 2 = qtyOf exDb 3 2 + 30 ∧
      p.2.status = .approved := by
  obtain ⟨p, h1, h2, h3, -, h5, -, -, -, -, -⟩ :=
    (claim_C3 exDb exTransfer exUser 4 none (by decide) (by decide) (by decide)).2
      (by decide)
  exact ⟨p, h1, h2, h3, h5⟩

/-- Claim C4: create_sale computes subtotal as the exact-decimal sum of
unit_price times quantity over the items, vat_amount as subtotal times the
configured VAT rate (16) over 100, total_amount as their sum, and commission
as total_amount times the user's commission rate over 100; at subtotal
1000.00 with rates 16 percent and 5 percent this yields 160.00, 1160.00 and
58.00. -/
theorem claim_C4 :
    (∀ (db : DB) (u : User) (sid : Nat) (items : List Item) (ip : Option String)
        (p : DB × Txn), create_sale db u sid items ip = .ok p →
      p.2.subtotal = (items.map (fun it => it.price * (it.quantity : ℚ))).sum ∧
      VAT_RATE = 16 ∧
      p.2.vat_amount = p.2.subtotal * VAT_RATE / 100 ∧
      p.2.total_amount = p.2.subtotal + p.2.vat_amount ∧
      p.2.commission = p.2.total_amount * u.commission_rate / 100) ∧
    (create_sale exDb exUser 1 [{ product_id := 1, quantity := 1, price := 1000 }]
        none).toOption.map
        (fun p => (p.2.subtotal, p.2.vat_amount, p.2.total_amount, p.2.commission))
      = some (1000, 160, 1160, 58) := by
  constructor
  · intro db u sid items ip p h
    obtain ⟨db2, t⟩ := p
    obtain ⟨ht, -, -, -, -, -⟩ := create_sale_ok_eq h
    subst ht
    exact ⟨sale_subtotal_eq_sum items, rfl, rfl, rfl, rfl⟩
  · have hfold : applySaleItems 1 exDb.inventories
        [{ product_id := 1, quantity := 1, price := 1000 }]
        = .ok (setInvQty exDb.inventories 1 1 4) := rfl
    simp only [create_sale, hfold, Except.toOption, Option.map_some']
    norm_num [sale_subtotal, calculate_vat, calculate_commission, VAT_RATE, exUser]

/-- Witness for claim C4 at the concrete scenario cart. -/
theorem claim_C4_witness :
    (create_sale exDb exUser 1 [{ product_id := 1, quantity := 1, price := 1000 }]
        none).toOption.map
        (fun p => (p.2.subtotal, p.2.vat_amount, p.2.total_amount, p.2.commission))
      = some (1000, 160, 1160, 58) :=
  claim_C4.2

/-- Claim C6: adjust_inventory reads the (product, store) quantity (0 for a
row it would create), fails with NegativeInventory when old + delta is
negative, leaving the database unchanged; otherwise it stores old + delta,
changes no other key, and prepends an audit record carrying the old and the
new quantity and the reason.  At quantity 100 and delta -150 it fails and
the quantity stays 100. -/
theorem claim_C6 :
    (∀ (db : DB) (pid sid : Nat) (delta : Int) (u : User) (reason : String)
        (ip : Option String),
      (qtyOf db pid sid + delta < 0 →
        adjust_inventory db pid sid delta u reason ip = .error .negativeInventory ∧
        adjustAtomic db pid sid delta u reason ip = db) ∧
      (¬ qtyOf db pid sid + delta < 0 →
        ∃ db2, adjust_inventory db pid sid delta u reason ip = .ok db2 ∧
          qtyOf db2 pid sid = qtyOf db pid sid + delta ∧
          (∀ p2 s2, ¬(p2 = pid ∧ s2 = sid) → qtyOf db2 p2 s2 = qtyOf db p2 s2) ∧
          db2.auditLogs =
            ({ user_id := u.id, action := "update",
               desc := .adjustDesc (qtyOf db pid sid) (qtyOf db pid sid + delta) reason,
               ip := ip } : AuditEntry) :: db.auditLogs)) ∧
    (adjust_inventory exDb 3 1 (-150) exUser "" none = .error .negativeInventory ∧
      qtyOf (adjustAtomic exDb 3 1 (-150) exUser "" none) 3 1 = 100) := by
  constructor
  · intro db pid sid delta u reason ip
    have he := adjust_eq db pid sid delta u reason ip
    constructor
    · intro hlt
      rw [if_pos (show qtyL db.inventories pid sid + delta < 0 from hlt)] at he
      exact ⟨he, by simp only [adjustAtomic, he]⟩
    · intro hge
      rw [if_neg (show ¬ qtyL db.inventories pid sid + delta < 0 from hge)] at he
      refine ⟨_, he, ?_, ?_, rfl⟩
      · have h2 : qtyL (setInvQty (getOrCreateInv db.inventories pid sid).1 pid sid
            (qtyL db.inventories pid sid + delta)) pid sid
            = qtyL db.inventories pid sid + delta :=
          qtyL_setInvQty_self _ (getOrCreate_isSome _ _ _)
        exact h2
      · intro p2 s2 hne2
        have h2 : qtyL (setInvQty (getOrCreateInv db.inventories pid sid).1 pid sid
            (qtyL db.inventories pid sid + delta)) p2 s2
            = qtyL db.inventories p2 s2 := by
          rw [qtyL_setInvQty_ne _ _ hne2, qtyL_getOrCreate]
        exact h2
  · exact ⟨rfl, rfl⟩

/-- Witness for claim C6 at the concrete failing adjustment. -/
theorem claim_C6_witness :
    adjust_inventory exDb 3 1 (-150) exUser "" none = .error .negativeInventory ∧
    qtyOf (adjustAtomic exDb 3 1 (-150) exUser "" none) 3 1 = 100 :=
  claim_C6.2

/-- Claim C7: a transfer moves only from pending to approved or from pending
to rejected; calling approve_transfer or reject_transfer on a non-pending
transfer fails with TransferNotPending (the atomic block then changes
nothing), so approval and rejection each happen at most once and a settled
transfer is never mutated again. -/
theorem claim_C7 (db : DB) (tr : Transfer) (u : User) (now : Nat) (reason : String)
    (ip : Option String) :
    (tr.status ≠ .pending →
      approve_transfer db tr u now ip = .error .transferNotPending ∧
      reject_transfer db tr u now reason ip = .error .transferNotPending) ∧
    (∀ p, approve_transfer db tr u now ip = .ok p →
      tr.status = .pending ∧ p.2.status = .approved) ∧
    (∀ p, reject_transfer db tr u now reason ip = .ok p →
      tr.status = .pending ∧ p.2.status = .rejected) := by
  refine ⟨?_, ?_, ?_⟩
  · intro hnp
    constructor
    · unfold approve_transfer
      rw [if_pos hnp]
    · unfold reject_transfer
      rw [if_pos hnp]
  · intro p hres
    obtain ⟨db2, tr2⟩ := p
    obtain ⟨hst, -, -, -, -, htr2⟩ := approve_ok_eq hres
    exact ⟨hst, by rw [htr2]⟩
  · intro p hres
    obtain ⟨db2, tr2⟩ := p
    obtain ⟨hst, htr2, -⟩ := reject_ok_eq hres
    exact ⟨hst, by rw [htr2]⟩

/-- Witness for claim C7: both settlement calls fail on an already approved
transfer. -/
theorem claim_C7_witness :
    approve_transfer exDb exTransferDone exUser 9 none = .error .transferNotPending ∧
    reject_transfer exDb exTransferDone exUser 9 "late" none = .error .transferNotPending :=
  (claim_C7 exDb exTransferDone exUser 9 "late" none).1 (by decide)

/-- Claim C8, evaluated against the code: every call of get_low_stock_items
raises NameError, because the module namespace of services_inventory.py does
not bind the name models that the filter expression dereferences; the
claimed quantity-at-most-reorder-level result is never produced. -/
theorem claim_C8 (db : DB) (store : Option Nat) :
    get_low_stock_items db store = .error .nameError := by
  unfold get_low_stock_items
  rw [if_neg (by decide)]

/-- Claim C9: create_sale on an empty items list does not fail: it returns a
sale Transaction whose subtotal, vat_amount, total_amount and commission are
all 0, appends no TransactionItem row and leaves every Inventory row
unchanged. -/
theorem claim_C9 (db : DB) (u : User) (sid : Nat) (ip : Option String) :
    ∃ p, create_sale db u sid [] ip = .ok p ∧
      p.2.transaction_type = .sale ∧ p.2.subtotal = 0 ∧ p.2.vat_amount = 0 ∧
      p.2.total_amount = 0 ∧ p.2.commission = 0 ∧
      p.1.transactions = db.transactions ++ [p.2] ∧
      p.1.transactionItems = db.transactionItems ∧
      p.1.inventories = db.inventories := by
  cases hres : create_sale db u sid [] ip with
  | error e =>
    exfalso
    simp only [create_sale, applySaleItems] at hres
    exact absurd hres (by simp)
  | ok p =>
    obtain ⟨db2, t⟩ := p
    obtain ⟨ht, hfold, htr, hitems, -, -⟩ := create_sale_ok_eq hres
    have hsub : sale_subtotal ([] : List Item) = 0 := rfl
    have hvat : calculate_vat 0 = 0 := by
      unfold calculate_vat
      norm_num
    refine ⟨(db2, t), rfl, ?_, ?_, ?_, ?_, ?_, ?_, ?_, ?_⟩
    · rw [ht]
    · rw [ht]
      exact hsub
    · rw [ht]
      show calculate_vat (sale_subtotal []) = 0
      rw [hsub, hvat]
    · rw [ht]
      show sale_subtotal [] + calculate_vat (sale_subtotal []) = 0
      rw [hsub, hvat, add_zero]
    · rw [ht]
      show calculate_commission (sale_subtotal [] + calculate_vat (sale_subtotal []))
        u.commission_rate = 0
      rw [hsub, hvat, add_zero]
      unfold calculate_commission
      norm_num
    · exact htr
    · rw [hitems]
      simp
    · have h2 : (Except.ok db.inventories : Except PosError (List InventoryRow))
          = .ok db2.inventories := hfold
      injection h2 with h3
      exact h3.symm

/-- Claim C5: process_return always succeeds on a validated cart whose rows
exist (returns only add stock, so there is no insufficiency failure); it
creates a return Transaction whose subtotal, vat_amount and total_amount are
the negation of what create_sale computes for the same items — the shared
definitions sale_subtotal and calculate_vat are exactly the sale
computation — with commission zero; it increments each line item's
(product, store) quantity by the item quantity; and it only appends to the
transaction list, leaving every existing transaction, the original included,
untouched. -/
theorem claim_C5 (db : DB) (orig : Txn) (u : User) (items : List Item) (ip : Option String)
    (hnn : InvNonNeg db)
    (hnd : (items.map Item.product_id).Nodup)
    (hpres : ∀ it ∈ items, (findInv db.inventories it.product_id orig.store_id).isSome) :
    ∃ p, process_return db orig u items ip = .ok p ∧
      p.2.transaction_type = .ret ∧
      p.2.subtotal = -(sale_subtotal items) ∧
      p.2.vat_amount = -(calculate_vat (sale_subtotal items)) ∧
      p.2.total_amount = -(sale_subtotal items + calculate_vat (sale_subtotal items)) ∧
      p.2.commission = 0 ∧
      (∀ it ∈ items, qtyOf p.1 it.product_id orig.store_id
          = qtyOf db it.product_id orig.store_id + (it.quantity : Int)) ∧
      p.1.transactions = db.transactions ++ [p.2] ∧
      p.1.users = db.users := by
  obtain ⟨invs2, hfold⟩ := applyReturnItems_total items db.inventories hpres hnn
  cases hres : process_return db orig u items ip with
  | error e =>
    exfalso
    simp only [process_return, hfold] at hres
    exact absurd hres (by simp)
  | ok p =>
    obtain ⟨db2, t⟩ := p
    obtain ⟨ht, hfold2, htr, -, husers⟩ := process_return_ok_eq hres
    refine ⟨(db2, t), rfl, ?_, ?_, ?_, ?_, ?_, ?_, htr, husers⟩
    · rw [ht]
    · rw [ht]
    · rw [ht]
    · rw [ht]
    · rw [ht]
    · intro it hmem
      have hq := applyReturnItems_ok_qty items _ _ hfold2 it.product_id orig.store_id
      have h2 : qtyL db2.inventories it.product_id orig.store_id
          = qtyL db.inventories it.product_id orig.store_id + (it.quantity : Int) := by
        rw [hq, if_pos rfl, soldSum_of_nodup hnd hmem]
      exact h2

/-- Witness for claim C5 at a concrete one-line return. -/
theorem claim_C5_witness :
    ∃ p, process_return exDb exOrig exUser
        [{ product_id := 1, quantity := 2, price := 50 }] none = .ok p ∧
      p.2.commission = 0 ∧ qtyOf p.1 1 1 = qtyOf exDb 1 1 + 2 := by
  obtain ⟨p, h1, -, -, -, -, h6, h7, -, -⟩ :=
    claim_C5 exDb exOrig exUser [{ product_id := 1, quantity := 2, price := 50 }] none
      (by show ∀ r ∈ exDb.inventories, 0 ≤ r.quantity; decide) (by decide) (by decide)
  exact ⟨p, h1, h6, h7 { product_id := 1, quantity := 2, price := 50 } (by decide)⟩

/-- Claim C10: the TransactionItem rows written by process_return store
total_price as unit_price times quantity, positive for validated items — the
negation lives only on the parent transaction — so the sum of the return's
item total_price values equals the negation of the parent's subtotal. -/
theorem claim_C10 (db : DB) (orig : Txn) (u : User) (items : List Item) (ip : Option String)
    (hnn : InvNonNeg db)
    (hpres : ∀ it ∈ items, (findInv db.inventories it.product_id orig.store_id).isSome)
    (hpos : ∀ it ∈ items, 0 < it.quantity ∧ 0 < it.price) :
    ∃ p, process_return db orig u items ip = .ok p ∧
      p.1.transactionItems = db.transactionItems ++ returnItemRows db.nextId items ∧
      (∀ rec ∈ returnItemRows db.nextId items,
        rec.total_price = rec.unit_price * (rec.quantity : ℚ) ∧ 0 < rec.total_price) ∧
      ((returnItemRows db.nextId items).map TxnItem.total_price).sum = -(p.2.subtotal) := by
  obtain ⟨invs2, hfold⟩ := applyReturnItems_total items db.inventories hpres hnn
  cases hres : process_return db orig u items ip with
  | error e =>
    exfalso
    simp only [process_return, hfold] at hres
    exact absurd hres (by simp)
  | ok p =>
    obtain ⟨db2, t⟩ := p
    obtain ⟨ht, -, -, hitems, -⟩ := process_return_ok_eq hres
    refine ⟨(db2, t), rfl, ?_, ?_, ?_⟩
    · rw [hitems]
      rfl
    · intro rec hrec
      unfold returnItemRows at hrec
      rcases List.mem_map.1 hrec with ⟨it, hit, rfl⟩
      obtain ⟨hq, hp⟩ := hpos it hit
      refine ⟨rfl, ?_⟩
      exact mul_pos hp (by exact_mod_cast hq)
    · have h1 : ((returnItemRows db.nextId items).map TxnItem.total_price).sum
          = sale_subtotal items := by
        unfold returnItemRows
        rw [List.map_map, sale_subtotal_eq_sum]
        rfl
      rw [h1, ht]
      simp

/-- Witness for claim C10 at a concrete one-line return. -/
theorem claim_C10_witness :
    ∃ p, process_return exDb exOrig exUser
        [{ product_id := 3, quantity := 4, price := 25 }] none = .ok p ∧
      ((returnItemRows exDb.nextId [{ product_id := 3, quantity := 4, price := 25 }]).map
          TxnItem.total_price).sum = -(p.2.subtotal) := by
  obtain ⟨p, h1, -, -, h4⟩ :=
    claim_C10 exDb exOrig exUser [{ product_id := 3, quantity := 4, price := 25 }] none
      (by show ∀ r ∈ exDb.inventories, 0 ≤ r.quantity; decide) (by decide) (by decide)
  exact ⟨p, h1, h4⟩

end POS
